import Mathlib

/-!
Verification development for the incident-report generator (`app.py`).

Text is modelled as `List Char` (`Str`). Python's `re.search` on the fixed
patterns of `app.py` is embedded as dedicated leftmost-scan matchers; the
backtracking behaviour of each concrete pattern is reproduced directly
(greedy `\s*` runs, lazy groups, character-class groups). `unicodedata
.normalize("NFKC", ...)` is an external library call and is abstracted as an
explicit function parameter `nfkc`; on every concrete input used below NFKC
is the identity (plain ASCII and NFKC-stable kanji), so instantiating
`nfkc := id` reproduces the program's behaviour on those inputs.
-/

abbrev Str := List Char

/-- Python `str.strip()` / regex `\s` whitespace set (Unicode whitespace as
recognised by CPython's `str.isspace`). -/
def isPyWS (c : Char) : Bool :=
  c = ' ' || c = '\t' || c = '\n' || c = '\x0b' || c = '\x0c' || c = '\r' ||
  c = '\x1c' || c = '\x1d' || c = '\x1e' || c = '\x1f' || c = '\x85' ||
  c = '\xa0' || c = '\u1680' ||
  ('\u2000' ≤ c && c ≤ '\u200a') ||
  c = '\u2028' || c = '\u2029' || c = '\u202f' || c = '\u205f' || c = '\u3000'

/-- Python `str.strip()`: drop leading and trailing whitespace. -/
def pyStrip (s : Str) : Str :=
  ((s.dropWhile isPyWS).reverse.dropWhile isPyWS).reverse

/-- Line-boundary characters of Python `str.splitlines`. -/
def isLineBreak (c : Char) : Bool :=
  c = '\n' || c = '\r' || c = '\x0b' || c = '\x0c' ||
  c = '\x1c' || c = '\x1d' || c = '\x1e' || c = '\x85' ||
  c = '\u2028' || c = '\u2029'

/-- Worker for `pySplitlines`; `cur` holds the current line reversed. -/
def pySplitlinesGo (cur : Str) : Str → List Str
  | [] => if cur = [] then [] else [cur.reverse]
  | '\r' :: '\n' :: rest => cur.reverse :: pySplitlinesGo [] rest
  | c :: rest =>
    if isLineBreak c then cur.reverse :: pySplitlinesGo [] rest
    else pySplitlinesGo (c :: cur) rest

/-- Python `str.splitlines()`. -/
def pySplitlines (s : Str) : List Str := pySplitlinesGo [] s

/-- Python `str.replace(a, b)` for single characters. -/
def replaceChar (a b : Char) (s : Str) : Str :=
  s.map fun c => if c = a then b else c

/-- Python `str.replace("\r\n", "\n")` (left-to-right, non-overlapping). -/
def replaceCRLF : Str → Str
  | [] => []
  | '\r' :: '\n' :: rest => '\n' :: replaceCRLF rest
  | c :: rest => c :: replaceCRLF rest

/-- `str(n)` for a natural number. -/
def natToChars (n : Nat) : Str := Nat.toDigits 10 n

/-- `str(i)` for a Python int. -/
def pyIntStr (i : Int) : Str :=
  if i < 0 then '-' :: natToChars i.natAbs else natToChars i.toNat

/-- Zero-pad to two digits, as `f"{n:02d}"` (for `n ≤ 99`). -/
def pad2 (n : Nat) : Str :=
  if n < 10 then '0' :: natToChars n else natToChars n

/-- Zero-pad to four digits, as `strftime("%Y")`. -/
def pad4 (n : Nat) : Str :=
  let d := natToChars n
  List.replicate (4 - d.length) '0' ++ d

-- ====== DateTime Parser (app.py lines 187-219) ======

/-- A parsed instant; `app.py` attaches the fixed JST offset to every parse,
so offsets cancel in all differences and are not modelled. -/
structure DT where
  year : Nat
  month : Nat
  day : Nat
  hour : Nat
  minute : Nat
  second : Nat
deriving DecidableEq

def isLeapYear (y : Nat) : Bool :=
  y % 4 = 0 && (y % 100 ≠ 0 || y % 400 = 0)

def daysInMonth (y m : Nat) : Nat :=
  if m = 2 then (if isLeapYear y then 29 else 28)
  else if m = 4 || m = 6 || m = 9 || m = 11 then 30
  else 31

/-- Days since 1970-01-01 of a civil date (Gregorian, proleptic). -/
def daysFromCivil (y m d : Nat) : Int :=
  let y' : Int := if m ≤ 2 then (y : Int) - 1 else (y : Int)
  let era : Int := (if 0 ≤ y' then y' else y' - 399).tdiv 400
  let yoe : Int := y' - era * 400
  let mp : Int := if 2 < m then (m : Int) - 3 else (m : Int) + 9
  let doy : Int := (153 * mp + 2).tdiv 5 + (d : Int) - 1
  let doe : Int := yoe * 365 + yoe.tdiv 4 - yoe.tdiv 100 + doy
  era * 146097 + doe - 719468

/-- Seconds since the epoch of a `DT` (common fixed offset elided). -/
def dtToSec (dt : DT) : Int :=
  daysFromCivil dt.year dt.month dt.day * 86400 +
    dt.hour * 3600 + dt.minute * 60 + dt.second

def digitVal (c : Char) : Nat := c.toNat - '0'.toNat

/-- `%Y` of `_strptime`: exactly four digits. -/
def parse4 : Str → Option (Nat × Str)
  | a :: b :: c :: d :: rest =>
    if a.isDigit && b.isDigit && c.isDigit && d.isDigit then
      some (digitVal a * 1000 + digitVal b * 100 + digitVal c * 10 + digitVal d, rest)
    else none
  | _ => none

/-- A two-digit-or-one-digit numeric field of `_strptime` with backtracking:
the two-character alternatives are tried first and the engine falls back to
the one-character alternative when the continuation `k` fails. -/
def alt2 {α : Type} (p2 : Char → Char → Option Nat) (p1 : Char → Option Nat)
    (k : Nat → Str → Option α) : Str → Option α
  | [] => none
  | [c] =>
    match p1 c with
    | some v => k v []
    | none => none
  | c1 :: c2 :: rest =>
    match p2 c1 c2 with
    | some v =>
      match k v rest with
      | some r => some r
      | none =>
        match p1 c1 with
        | some v1 => k v1 (c2 :: rest)
        | none => none
    | none =>
      match p1 c1 with
      | some v1 => k v1 (c2 :: rest)
      | none => none

/-- `%m` two-char alternatives `1[0-2]|0[1-9]`. -/
def month2 (c1 c2 : Char) : Option Nat :=
  if c1 = '1' && '0' ≤ c2 && c2 ≤ '2' then some (10 + digitVal c2)
  else if c1 = '0' && '1' ≤ c2 && c2 ≤ '9' then some (digitVal c2)
  else none

/-- `%m` one-char alternative `[1-9]`. -/
def month1 (c : Char) : Option Nat :=
  if '1' ≤ c && c ≤ '9' then some (digitVal c) else none

/-- `%d` two-char alternatives `3[01]|[12]\d|0[1-9]`. -/
def day2 (c1 c2 : Char) : Option Nat :=
  if c1 = '3' && ('0' ≤ c2 && c2 ≤ '1') then some (30 + digitVal c2)
  else if ('1' ≤ c1 && c1 ≤ '2') && c2.isDigit then some (digitVal c1 * 10 + digitVal c2)
  else if c1 = '0' && '1' ≤ c2 && c2 ≤ '9' then some (digitVal c2)
  else none

/-- `%d` one-char alternative `[1-9]`. -/
def day1 (c : Char) : Option Nat :=
  if '1' ≤ c && c ≤ '9' then some (digitVal c) else none

/-- `%H` two-char alternatives `2[0-3]|[0-1]\d`. -/
def hour2 (c1 c2 : Char) : Option Nat :=
  if c1 = '2' && ('0' ≤ c2 && c2 ≤ '3') then some (20 + digitVal c2)
  else if ('0' ≤ c1 && c1 ≤ '1') && c2.isDigit then some (digitVal c1 * 10 + digitVal c2)
  else none

/-- `%H` one-char alternative `\d`. -/
def hour1 (c : Char) : Option Nat :=
  if c.isDigit then some (digitVal c) else none

/-- `%M` two-char alternative `[0-5]\d`. -/
def minute2 (c1 c2 : Char) : Option Nat :=
  if ('0' ≤ c1 && c1 ≤ '5') && c2.isDigit then some (digitVal c1 * 10 + digitVal c2)
  else none

/-- `%M` one-char alternative `\d`. -/
def minute1 (c : Char) : Option Nat :=
  if c.isDigit then some (digitVal c) else none

/-- `%S` two-char alternatives `6[0-1]|[0-5]\d`. -/
def second2 (c1 c2 : Char) : Option Nat :=
  if c1 = '6' && ('0' ≤ c2 && c2 ≤ '1') then some (60 + digitVal c2)
  else if ('0' ≤ c1 && c1 ≤ '5') && c2.isDigit then some (digitVal c1 * 10 + digitVal c2)
  else none

/-- `%S` one-char alternative `\d`. -/
def second1 (c : Char) : Option Nat :=
  if c.isDigit then some (digitVal c) else none

/-- `datetime` construction after a regex match: rejects year 0 (4-digit `%Y`
caps the year at 9999), day counts beyond the month, and the leap seconds
`%S` admits but `datetime` refuses. -/
def mkValidDT (y mo d h mi ss : Nat) : Option DT :=
  if 1 ≤ y && d ≤ daysInMonth y mo && ss ≤ 59 then some ⟨y, mo, d, h, mi, ss⟩
  else none

/-- `datetime.strptime(s, "%Y/%m/%d %H:%M:%S")` (full-match required; the
format's space becomes `\s+`). -/
def strptime_ymd_hms (s : Str) : Option DT :=
  match parse4 s with
  | some (y, '/' :: r1) =>
    alt2 month2 month1 (fun mo r2 =>
      match r2 with
      | '/' :: r3 =>
        alt2 day2 day1 (fun d r4 =>
          let r5 := r4.dropWhile isPyWS
          if r4.length = r5.length then none else
          alt2 hour2 hour1 (fun h r6 =>
            match r6 with
            | ':' :: r7 =>
              alt2 minute2 minute1 (fun mi r8 =>
                match r8 with
                | ':' :: r9 =>
                  alt2 second2 second1 (fun ss r10 =>
                    if r10 = [] then mkValidDT y mo d h mi ss else none) r9
                | _ => none) r7
            | _ => none) r5) r3
      | _ => none) r1
  | _ => none

/-- `datetime.strptime(s, "%Y/%m/%d %H:%M")`. -/
def strptime_ymd_hm (s : Str) : Option DT :=
  match parse4 s with
  | some (y, '/' :: r1) =>
    alt2 month2 month1 (fun mo r2 =>
      match r2 with
      | '/' :: r3 =>
        alt2 day2 day1 (fun d r4 =>
          let r5 := r4.dropWhile isPyWS
          if r4.length = r5.length then none else
          alt2 hour2 hour1 (fun h r6 =>
            match r6 with
            | ':' :: r7 =>
              alt2 minute2 minute1 (fun mi r8 =>
                if r8 = [] then mkValidDT y mo d h mi 0 else none) r7
            | _ => none) r5) r3
      | _ => none) r1
  | _ => none

/-- `datetime.strptime(s, "%Y/%m/%d")`. -/
def strptime_ymd (s : Str) : Option DT :=
  match parse4 s with
  | some (y, '/' :: r1) =>
    alt2 month2 month1 (fun mo r2 =>
      match r2 with
      | '/' :: r3 =>
        alt2 day2 day1 (fun d r4 =>
          if r4 = [] then mkValidDT y mo d 0 0 0 else none) r3
      | _ => none) r1
  | _ => none

/-- `_try_parse_datetime` (app.py lines 187-200): falsy guard, strip, the
glyph replacements, then the three formats in order. -/
def _try_parse_datetime (s : Option Str) : Option DT :=
  match s with
  | none => none
  | some s0 =>
    if s0 = [] then none else
    let c1 := pyStrip s0
    let c2 := replaceChar '年' '/' c1
    let c3 := replaceChar '月' '/' c2
    let c4 := c3.filter (· ≠ '日')
    let c5 := replaceChar '-' '/' c4
    let c6 := replaceChar '　' ' ' c5
    match strptime_ymd_hms c6 with
    | some dt => some dt
    | none =>
      match strptime_ymd_hm c6 with
      | some dt => some dt
      | none => strptime_ymd c6

/-- `WEEKDAYS_JA` (app.py line 48). -/
def WEEKDAYS_JA : List Str :=
  ["月".data, "火".data, "水".data, "木".data, "金".data, "土".data, "日".data]

/-- `datetime.weekday()`: Monday = 0; 1970-01-01 was a Thursday. -/
def weekdayIdx (dt : DT) : Nat :=
  ((daysFromCivil dt.year dt.month dt.day + 3).emod 7).toNat

/-- `_split_dt_components` (app.py lines 202-212). -/
def _split_dt_components (o : Option DT) :
    Option Nat × Option Nat × Option Nat × Option Str × Option Nat × Option Nat :=
  match o with
  | none => (none, none, none, none, none, none)
  | some dt =>
    (some dt.year, some dt.month, some dt.day,
     some (WEEKDAYS_JA.getD (weekdayIdx dt) []), some dt.hour, some dt.minute)

/-- `dt.strftime("%Y%m%d")`. -/
def strftimeYMD (dt : DT) : Str := pad4 dt.year ++ pad2 dt.month ++ pad2 dt.day

/-- `_first_date_yyyymmdd` (app.py lines 214-219); `now` is the ambient
`datetime.now(JST)` made explicit. -/
def _first_date_yyyymmdd (vals : List (Option Str)) (now : DT) : Str :=
  match vals with
  | [] => strftimeYMD now
  | v :: rest =>
    match _try_parse_datetime v with
    | some dt => strftimeYMD dt
    | none => _first_date_yyyymmdd rest now

/-- `minutes_between` (app.py lines 221-226): `int(total_seconds() // 60)` is
floor division of an exact whole-second value. -/
def minutes_between (a b : Option Str) : Option Int :=
  match _try_parse_datetime a, _try_parse_datetime b with
  | some s, some e => some ((dtToSec e - dtToSec s).fdiv 60)
  | _, _ => none

/-- app.py lines 297-298: `out["作業時間_分"] = str(dur) if dur is not None
and dur >= 0 else None`. -/
def workMinutesField (a b : Option Str) : Option Str :=
  match minutes_between a b with
  | some dur => if 0 ≤ dur then some (pyIntStr dur) else none
  | none => none

-- ====== Multiline Truncator (app.py lines 228-235) ======

/-- `_split_lines`: strip each line, drop blanks, then the slice
`lines[: max_lines - 1] + [lines[max_lines - 1] + "…"]` when over the bound.
For `max_lines = 0` Python's `-1` indices select all-but-last and the last
line, reproduced in the second branch. -/
def _split_lines (text : Option Str) (max_lines : Nat) : List Str :=
  match text with
  | none => []
  | some s =>
    if s = [] then [] else
    let lines := ((pySplitlines s).map pyStrip).filter (· ≠ [])
    if lines.length ≤ max_lines then lines
    else if max_lines = 0 then lines.dropLast ++ [lines.getLastD [] ++ ['…']]
    else lines.take (max_lines - 1) ++ [lines.getD (max_lines - 1) [] ++ ['…']]

-- ====== Filename Builder (app.py lines 373-383) ======

/-- Characters of the class `[\\/:*?"<>|]` in `_sanitize_filename`. -/
def isUnsafeFileChar (c : Char) : Bool :=
  c = '\\' || c = '/' || c = ':' || c = '*' || c = '?' || c = '"' ||
  c = '<' || c = '>' || c = '|'

/-- Worker for `_sanitize_filename`: `re.sub` collapses each maximal run of
unsafe characters into a single `_`; `prev` records whether the previous
character belonged to the current run. -/
def sanitizeGo (prev : Bool) : Str → Str
  | [] => []
  | c :: rest =>
    if isUnsafeFileChar c then
      if prev then sanitizeGo true rest else '_' :: sanitizeGo true rest
    else c :: sanitizeGo false rest

/-- `_sanitize_filename` (app.py lines 373-375). -/
def _sanitize_filename (s : Str) : Str := sanitizeGo false s

-- ====== Text Normalizer (app.py lines 167-173) ======

/-- The replacement chain of `normalize_text` after NFKC:
`replace("：", ":")`, `replace("\t", " ")`, `replace("\r\n", "\n")`,
`replace("\r", "\n")`. -/
def normalizeRepl (t : Str) : Str :=
  replaceChar '\r' '\n' (replaceCRLF (replaceChar '\t' ' ' (replaceChar '：' ':' t)))

/-- `normalize_text` with the external `unicodedata.normalize("NFKC", ·)`
abstracted as the parameter `nfkc`. -/
def normalize_text (nfkc : Str → Str) (text : Str) : Str :=
  if text = [] then [] else normalizeRepl (nfkc text)

-- ====== Regex-search embedding ======

/-- Remove a literal from the head of a string: `some r` iff `s = lit ++ r`. -/
def dropPfx? : Str → Str → Option Str
  | [], s => some s
  | _ :: _, [] => none
  | a :: as', b :: bs => if a = b then dropPfx? as' bs else none

/-- `re.search`: try the position matcher `m` at each suffix, left to right
(leftmost match wins; later positions are tried when `m` fails). -/
def searchFrom {α : Type} (m : Str → Option α) : Str → Option α
  | [] => m []
  | c :: rest =>
    match m (c :: rest) with
    | some r => some r
    | none => searchFrom m rest

/-- All patterns of `app.py` begin with a fixed literal: a position matches
only if the literal is present there. -/
def withLit {α : Type} (lit : Str) (k : Str → Option α) (s : Str) : Option α :=
  match dropPfx? lit s with
  | none => none
  | some r => k r

/-- The `\s*:` that follows each label literal: the greedy whitespace run
must be followed by the colon (the two character sets are disjoint, so no
backtracking arises). -/
def afterColon {α : Type} (k : Str → Option α) (r : Str) : Option α :=
  match r.dropWhile isPyWS with
  | ':' :: rest => k rest
  | _ => none

/-- Position matcher for `LIT\s*:\s*(.+)` (the full-remainder single-line
patterns).  After the colon the greedy `\s*` takes the maximal whitespace
run; `(.+)` then captures the rest of that line.  When only whitespace
remains, backtracking hands the last non-newline whitespace character to
`(.+)` (it is stripped away afterwards by `_search_one`). -/
def groupRem (rest : Str) : Option Str :=
  match rest.dropWhile isPyWS with
  | c :: tl => some (c :: tl.takeWhile (· ≠ '\n'))
  | [] =>
    match ((rest.takeWhile isPyWS).filter (· ≠ '\n')).getLast? with
    | some w => some [w]
    | none => none

def matchLabelRem (lit : Str) : Str → Option Str :=
  withLit lit (afterColon groupRem)

/-- Position matcher for `LIT\s*:\s*(CLS+)` where the class `CLS` contains
no whitespace (`[A-Za-z0-9\-]`, `[0-9]`): the group must start right after
the maximal whitespace run, otherwise no backtracking can help. -/
def groupClass (cls : Char → Bool) (rest : Str) : Option Str :=
  match rest.dropWhile isPyWS with
  | c :: tl => if cls c then some (c :: tl.takeWhile cls) else none
  | [] => none

def matchLabelClass (lit : Str) (cls : Char → Bool) : Str → Option Str :=
  withLit lit (afterColon (groupClass cls))

/-- Position matcher for `LIT\s*:\s*([0-9/\-:\s]+)`: the class includes
whitespace, so when the character after the whitespace run is outside the
class (or missing), backtracking gives the run's last character to the
group. -/
def groupClassWS (cls : Char → Bool) (rest : Str) : Option Str :=
  match rest.dropWhile isPyWS with
  | c :: tl =>
    if cls c then some (c :: tl.takeWhile cls)
    else
      match (rest.takeWhile isPyWS).getLast? with
      | some w => some [w]
      | none => none
  | [] =>
    match (rest.takeWhile isPyWS).getLast? with
    | some w => some [w]
    | none => none

def matchLabelClassWS (lit : Str) (cls : Char → Bool) : Str → Option Str :=
  withLit lit (afterColon (groupClassWS cls))

def asciiLower (c : Char) : Char :=
  if 'A' ≤ c && c ≤ 'Z' then Char.ofNat (c.toNat + 32) else c

/-- Case-insensitive comparison with an ASCII-lowercase literal. -/
def dropPfxCI? : Str → Str → Option Str
  | [], s => some s
  | _ :: _, [] => none
  | a :: as', b :: bs => if a = asciiLower b then dropPfxCI? as' bs else none

/-- `(https?://\S+)` at the current position (IGNORECASE): the greedy `s?`
is tried first; `\S+` needs at least one non-whitespace character after the
`://`.  The captured text keeps the original casing, so it is the maximal
non-whitespace run from the current position. -/
def matchURLAt (s : Str) : Option Str :=
  match dropPfxCI? "https://".data s with
  | some (c :: _) => if isPyWS c then none else some (s.takeWhile (fun x => ¬ isPyWS x))
  | some [] => none
  | none =>
    match dropPfxCI? "http://".data s with
    | some (c :: _) => if isPyWS c then none else some (s.takeWhile (fun x => ¬ isPyWS x))
    | some [] => none
    | none => none

/-- The scan performed by the lazy `.*?` (no DOTALL) before a URL group:
positions after the maximal `\s*` run are tried left to right until the
line ends. -/
def scanURLToNl : Str → Option Str
  | [] => none
  | c :: rest =>
    if c = '\n' then none
    else
      match matchURLAt (c :: rest) with
      | some u => some u
      | none => scanURLToNl rest

/-- Position matcher for `詳細はこちら\s*:\s*.*?(https?://\S+)`. -/
def matchLabelLazyURL (lit : Str) : Str → Option Str :=
  withLit lit (afterColon fun rest => scanURLToNl (rest.dropWhile isPyWS))

/-- Position matcher for `現着・完了登録はこちら\s*:\s*(https?://\S+)`:
the URL must start right after the maximal whitespace run. -/
def matchLabelURL (lit : Str) : Str → Option Str :=
  withLit lit (afterColon fun rest => matchURLAt (rest.dropWhile isPyWS))

/-- After `件名:` in `件名:\s*【\s*([^】]+)\s*】`: the greedy group keeps
any trailing whitespace before `】`; when the brackets enclose only
whitespace the group backtracks to the run's last character. -/
def subjCaseAfter (r : Str) : Option Str :=
  match r.dropWhile isPyWS with
  | '【' :: r2 =>
    let w2 := r2.takeWhile isPyWS
    let r3 := r2.dropWhile isPyWS
    let content := r3.takeWhile (· ≠ '】')
    match r3.drop content.length with
    | '】' :: _ =>
      match content with
      | _ :: _ => some content
      | [] =>
        match w2.getLast? with
        | some w => some [w]
        | none => none
    | _ => none
  | _ => none

/-- Position matcher for `件名:\s*【\s*([^】]+)\s*】` (no `\s*` before the
colon in the source pattern). -/
def matchSubjectCase : Str → Option Str :=
  withLit "件名:".data subjCaseAfter

/-- `[A-Z0-9\-]` under IGNORECASE: ASCII letters of either case, digits,
hyphen. -/
def isMgmtChar (c : Char) : Bool := c.isAlpha || c.isDigit || c = '-'

/-- After a candidate `【` of `件名:.*?【[^】]+】\s*([A-Z0-9\-]+)`: nonempty
bracket content up to the first `】`, then `\s*`, then a nonempty class
group. -/
def subjMgmtAfterBracket (r : Str) : Option Str :=
  let content := r.takeWhile (· ≠ '】')
  if content = [] then none
  else
    match r.drop content.length with
    | '】' :: r2 =>
      let tok := (r2.dropWhile isPyWS).takeWhile isMgmtChar
      if tok = [] then none else some tok
    | _ => none

/-- The lazy `.*?` scan of the management-number subject pattern: candidates
for `【` are tried left to right within the current line. -/
def subjMgmtScan : Str → Option Str
  | [] => none
  | c :: rest =>
    if c = '\n' then none
    else if c = '【' then
      match subjMgmtAfterBracket rest with
      | some v => some v
      | none => subjMgmtScan rest
    else subjMgmtScan rest

/-- Position matcher for `件名:.*?【[^】]+】\s*([A-Z0-9\-]+)`. -/
def matchSubjectMgmt : Str → Option Str :=
  withLit "件名:".data subjMgmtScan

/-- `_search_one` (app.py lines 175-177): leftmost search, then
`.group(1).strip()`. -/
def _search_one (m : Str → Option Str) (t : Str) : Option Str :=
  (searchFrom m t).map pyStrip

/-- One alternative `LIT\s*:` of the boundary alternation built by
`_search_span_between`. -/
def matchLab (lit : Str) (s : Str) : Bool :=
  match dropPfx? lit s with
  | some r =>
    match r.dropWhile isPyWS with
    | ':' :: _ => true
    | _ => false
  | none => false

def boundaryHit (others : List Str) (s : Str) : Bool :=
  others.any fun l => matchLab l s

/-- The lazy `(.+?)` of the span pattern after its first character: extend
until the lookahead `(?=\n(?:boundary)|\Z)` succeeds. -/
def spanTail (others : List Str) : Str → Str
  | [] => []
  | c :: rest =>
    if c = '\n' && boundaryHit others rest then []
    else c :: spanTail others rest

/-- Position matcher for `LIT\s*:\s*(.+?)(?=\n(?:boundary)|\Z)` with DOTALL:
the greedy `\s*` takes the maximal run (even across newlines), then the lazy
group takes at least one character up to the first boundary line or the end
of the text.  If nothing but whitespace follows the colon, backtracking
hands its last character to the group. -/
def groupSpan (others : List Str) (rest : Str) : Option Str :=
  match rest.dropWhile isPyWS with
  | c :: tl => some (c :: spanTail others tl)
  | [] =>
    match (rest.takeWhile isPyWS).getLast? with
    | some w => some [w]
    | none => none

def matchSpanAt (lit : Str) (others : List Str) : Str → Option Str :=
  withLit lit (afterColon (groupSpan others))

/-- `_search_span_between` (app.py lines 179-185) for a fixed key: `lit` is
the key's own label, `others` the labels of all other keys. -/
def _search_span_between (lit : Str) (others : List Str) (t : Str) : Option Str :=
  (searchFrom (matchSpanAt lit others) t).map pyStrip

-- ====== Label-Anchored Field Parser (app.py lines 238-299) ======

/-- The value class `[0-9/\-:\s]` of the time-of-day patterns. -/
def isTimeChar (c : Char) : Bool :=
  c.isDigit || c = '/' || c = '-' || c = ':' || isPyWS c

/-- Python truthiness of an `Optional[str]`: `None` and `""` are falsy. -/
def truthy : Option Str → Bool
  | some (_ :: _) => true
  | _ => false

/-- The labels of `multiline_labels` (app.py lines 266-277), in dict order. -/
def multilineLits : List Str :=
  ["受信内容".data, "現着状況".data, "原因".data, "処置内容".data,
   "通報者".data, "対応者".data, "送信者".data, "現着時刻".data, "完了時刻".data]

/-- `_search_span_between(multiline_labels, k, t)` for the key with label
`lit`: the boundary alternation is built from all other labels. -/
def searchSpan (lit : Str) (t : Str) : Option Str :=
  _search_span_between lit (multilineLits.filter (· ≠ lit)) t

/-- The span override of app.py lines 292-295: `if span: out[k] = span`. -/
def spanOv (lit : Str) (t : Str) (single : Option Str) : Option Str :=
  let sp := searchSpan lit t
  if truthy sp then sp else single

/-- The extracted record: every key `extract_fields` produces, plus `«所属»`
and `«処理修理後»`, which the surrounding app may add to the dict later and
the projector reads via `.get` (absent ⇒ `None`). -/
structure Record where
  «管理番号» : Option Str
  «物件名» : Option Str
  «住所» : Option Str
  «窓口会社» : Option Str
  «メーカー» : Option Str
  «制御方式» : Option Str
  «契約種別» : Option Str
  «受信時刻» : Option Str
  «通報者» : Option Str
  «現着時刻» : Option Str
  «完了時刻» : Option Str
  «対応者» : Option Str
  «送信者» : Option Str
  «受付番号» : Option Str
  «受付URL» : Option Str
  «現着完了登録URL» : Option Str
  «受信内容» : Option Str
  «現着状況» : Option Str
  «原因» : Option Str
  «処置内容» : Option Str
  «案件種別_件名» : Option Str
  «作業時間_分» : Option Str
  «所属» : Option Str
  «処理修理後» : Option Str
deriving DecidableEq

/-- The record with every field `None`. -/
def nullRecord : Record :=
  ⟨none, none, none, none, none, none, none, none, none, none, none, none,
   none, none, none, none, none, none, none, none, none, none, none, none⟩

/-- `extract_fields` (app.py lines 238-299).  Single-line patterns are
searched first; the management number falls back to the subject token when
falsy; the span loop then overrides each multi-line key whose span is
truthy; finally the work-minutes field is derived from the (possibly
overridden) arrival and completion times. -/
def extract_fields (nfkc : Str → Str) (raw_text : Str) : Record :=
  let t := normalize_text nfkc raw_text
  let subject_case := _search_one matchSubjectCase t
  let subject_manageno := _search_one matchSubjectMgmt t
  let «v管理番号» := _search_one (matchLabelClass "管理番号".data isMgmtChar) t
  let «v物件名» := _search_one (matchLabelRem "物件名".data) t
  let «v住所» := _search_one (matchLabelRem "住所".data) t
  let «v窓口会社» := _search_one (matchLabelRem "窓口".data) t
  let «vメーカー» := _search_one (matchLabelRem "メーカー".data) t
  let «v制御方式» := _search_one (matchLabelRem "制御方式".data) t
  let «v契約種別» := _search_one (matchLabelRem "契約種別".data) t
  let «v受信時刻» := _search_one (matchLabelClassWS "受信時刻".data isTimeChar) t
  let «v通報者» := _search_one (matchLabelRem "通報者".data) t
  let «v現着時刻» := _search_one (matchLabelClassWS "現着時刻".data isTimeChar) t
  let «v完了時刻» := _search_one (matchLabelClassWS "完了時刻".data isTimeChar) t
  let «v対応者» := _search_one (matchLabelRem "対応者".data) t
  let «v送信者» := _search_one (matchLabelRem "送信者".data) t
  let «v受付番号» := _search_one (matchLabelClass "受付番号".data Char.isDigit) t
  let «v受付URL» := _search_one (matchLabelLazyURL "詳細はこちら".data) t
  let «v現着完了登録URL» := _search_one (matchLabelURL "現着・完了登録はこちら".data) t
  let «f管理番号» :=
    if !truthy «v管理番号» && truthy subject_manageno then subject_manageno
    else «v管理番号»
  let «f受信内容» := spanOv "受信内容".data t none
  let «f現着状況» := spanOv "現着状況".data t none
  let «f原因» := spanOv "原因".data t none
  let «f処置内容» := spanOv "処置内容".data t none
  let «f通報者» := spanOv "通報者".data t «v通報者»
  let «f対応者» := spanOv "対応者".data t «v対応者»
  let «f送信者» := spanOv "送信者".data t «v送信者»
  let «f現着時刻» := spanOv "現着時刻".data t «v現着時刻»
  let «f完了時刻» := spanOv "完了時刻".data t «v完了時刻»
  { «管理番号» := «f管理番号»
    «物件名» := «v物件名»
    «住所» := «v住所»
    «窓口会社» := «v窓口会社»
    «メーカー» := «vメーカー»
    «制御方式» := «v制御方式»
    «契約種別» := «v契約種別»
    «受信時刻» := «v受信時刻»
    «通報者» := «f通報者»
    «現着時刻» := «f現着時刻»
    «完了時刻» := «f完了時刻»
    «対応者» := «f対応者»
    «送信者» := «f送信者»
    «受付番号» := «v受付番号»
    «受付URL» := «v受付URL»
    «現着完了登録URL» := «v現着完了登録URL»
    «受信内容» := «f受信内容»
    «現着状況» := «f現着状況»
    «原因» := «f原因»
    «処置内容» := «f処置内容»
    «案件種別_件名» := subject_case
    «作業時間_分» := workMinutesField «f現着時刻» «f完了時刻»
    «所属» := none
    «処理修理後» := none }

-- ====== Template Projector (app.py lines 302-371) ======

/-- A cell value as written by `fill_template_xlsx`: strings everywhere
except the integer year/month/day components. -/
inductive CellVal where
  | str (s : Str)
  | int (n : Int)
deriving DecidableEq

/-- A cell coordinate: column letter and row. -/
abbrev Cell := Char × Nat

/-- The worksheet abstraction: total map from cell to value.  Loading and
re-serialising the workbook (openpyxl) are external collaborators; the
projection itself is the sequence of `ws[...] = v` assignments. -/
abbrev Sheet := Cell → CellVal

def setCell (ws : Sheet) (c : Cell) (v : CellVal) : Sheet :=
  fun c' => if c' = c then v else ws c'

/-- Apply the assignments of the projector in program order. -/
def applyWrites (l : List (Cell × CellVal)) (ws : Sheet) : Sheet :=
  l.foldl (fun w e => setCell w e.1 e.2) ws

/-- `if data.get(k): ws[cell] = data[k]` as a write list. -/
def writeIf (v : Option Str) (c : Cell) : List (Cell × CellVal) :=
  match v with
  | some (h :: t) => [(c, CellVal.str (h :: t))]
  | _ => []

/-- `fill_multiline` (app.py lines 313-321) as a write list: every row of
the block is first cleared to `""`; the truncated lines are then written
from the anchor row. -/
def fill_multiline (col : Char) (start_row : Nat) (text : Option Str)
    (max_lines : Nat) : List (Cell × CellVal) :=
  ((List.range max_lines).map fun i => (((col, start_row + i) : Cell), CellVal.str [])) ++
    (match text with
     | none => []
     | some tx =>
       if tx = [] then []
       else
         ((_split_lines (some tx) max_lines).take max_lines).enum.map
           fun e => (((col, start_row + e.1) : Cell), CellVal.str e.2))

/-- `write_dt_block` (app.py lines 343-353) as a write list. -/
def write_dt_block (base_row : Nat) (src : Option Str) : List (Cell × CellVal) :=
  let dt := _try_parse_datetime src
  let comps := _split_dt_components dt
  (match comps.1 with
   | some y => [((('C', base_row) : Cell), CellVal.int y)]
   | none => []) ++
  (match comps.2.1 with
   | some m => [((('F', base_row) : Cell), CellVal.int m)]
   | none => []) ++
  (match comps.2.2.1 with
   | some d => [((('H', base_row) : Cell), CellVal.int d)]
   | none => []) ++
  (match comps.2.2.2.1 with
   | some wd => [((('J', base_row) : Cell), CellVal.str wd)]
   | none => []) ++
  (match comps.2.2.2.2.1 with
   | some hh => [((('M', base_row) : Cell), CellVal.str (pad2 hh))]
   | none => []) ++
  (match comps.2.2.2.2.2 with
   | some mm => [((('O', base_row) : Cell), CellVal.str (pad2 mm))]
   | none => [])

/-- The `処理修理後` value (app.py lines 331-333):
`(st.session_state.get("processing_after") or data.get("処理修理後") or "").strip()`;
the session value is an explicit input here. -/
def paValue (processing_after_session : Option Str) (data : Record) : Str :=
  pyStrip
    (if truthy processing_after_session then processing_after_session.getD []
     else if truthy data.«処理修理後» then data.«処理修理後».getD []
     else [])

/-- The write lists before the date stamp: single items and `処理修理後` /
`所属` (app.py lines 324-336). -/
def writesPre (data : Record) (processing_after_session : Option Str) :
    List (Cell × CellVal) :=
  writeIf data.«管理番号» ('C', 12) ++
  writeIf data.«メーカー» ('J', 12) ++
  writeIf data.«制御方式» ('M', 12) ++
  writeIf data.«通報者» ('C', 14) ++
  writeIf data.«対応者» ('L', 37) ++
  (let pa := paValue processing_after_session data
   if pa = [] then [] else [((('C', 35) : Cell), CellVal.str pa)]) ++
  writeIf data.«所属» ('C', 37)

/-- `ws["B5"], ws["D5"], ws["F5"] = now.year, now.month, now.day`
(app.py lines 339-340). -/
def writesStamp (now : DT) : List (Cell × CellVal) :=
  [(('B', 5), CellVal.int now.year), (('D', 5), CellVal.int now.month),
   (('F', 5), CellVal.int now.day)]

/-- The write lists after the date stamp: the three date/time blocks and the
four multi-line blocks (app.py lines 355-363). -/
def writesPost (data : Record) : List (Cell × CellVal) :=
  write_dt_block 13 data.«受信時刻» ++
  write_dt_block 19 data.«現着時刻» ++
  write_dt_block 36 data.«完了時刻» ++
  fill_multiline 'C' 15 data.«受信内容» 4 ++
  fill_multiline 'C' 20 data.«現着状況» 5 ++
  fill_multiline 'C' 25 data.«原因» 5 ++
  fill_multiline 'C' 30 data.«処置内容» 5

/-- All assignments of `fill_template_xlsx`, in program order. -/
def fill_template_writes (data : Record) (processing_after_session : Option Str)
    (now : DT) : List (Cell × CellVal) :=
  writesPre data processing_after_session ++ writesStamp now ++ writesPost data

/-- `fill_template_xlsx` (app.py lines 302-371) on the worksheet
abstraction; `now` is the ambient `datetime.now(JST)` made explicit. -/
def fill_template_xlsx (ws : Sheet) (data : Record)
    (processing_after_session : Option Str) (now : DT) : Sheet :=
  applyWrites (fill_template_writes data processing_after_session now) ws

-- ====== Filename Builder (app.py lines 377-383) ======

/-- `build_filename` (app.py lines 377-383). -/
def build_filename (data : Record) (now : DT) : Str :=
  let base_day := _first_date_yyyymmdd [data.«現着時刻», data.«完了時刻», data.«受信時刻»] now
  let manageno := _sanitize_filename (replaceChar '/' '_' (pyStrip
    (if truthy data.«管理番号» then data.«管理番号».getD [] else "UNKNOWN".data)))
  let bname := _sanitize_filename (replaceChar '/' '_' (pyStrip
    (if truthy data.«物件名» then data.«物件名».getD [] else [])))
  if bname ≠ [] then
    "緊急出動報告書_".data ++ manageno ++ "_".data ++ bname ++ "_".data ++ base_day ++ ".xlsm".data
  else
    "緊急出動報告書_".data ++ manageno ++ "_".data ++ base_day ++ ".xlsm".data

/-- The filename shape stated by the specification (§4.7): fixed leading
token, identifier, optional `_` + site name, `_` + anchor date, fixed
extension — the site segment omitted together with its separator when the
sanitized site name is empty. -/
def build_filename_shape (data : Record) (now : DT) : Str :=
  let base_day := _first_date_yyyymmdd [data.«現着時刻», data.«完了時刻», data.«受信時刻»] now
  let manageno := _sanitize_filename (replaceChar '/' '_' (pyStrip
    (if truthy data.«管理番号» then data.«管理番号».getD [] else "UNKNOWN".data)))
  let bname := _sanitize_filename (replaceChar '/' '_' (pyStrip
    (if truthy data.«物件名» then data.«物件名».getD [] else [])))
  "緊急出動報告書_".data ++ manageno ++
    (if bname = [] then [] else "_".data ++ bname) ++
    "_".data ++ base_day ++ ".xlsm".data

-- ====== Concrete instances used by witnesses and counterexamples ======

/-- A fixed generation instant for concrete evaluations. -/
def now0 : DT := ⟨2025, 10, 12, 9, 0, 0⟩

/-- A second, different generation instant. -/
def now1 : DT := ⟨2026, 1, 2, 3, 4, 5⟩

/-- A base sheet whose every cell holds the string `"X"`. -/
def baseX : Sheet := fun _ => CellVal.str ['X']

/-- The record of the specification's filename test vector. -/
def sampleC2 : Record :=
  { nullRecord with
    «管理番号» := some "HK-001".data
    «物件名» := some "Sample/Bldg".data
    «現着時刻» := some "2025/05/10 10:00:00".data }

/-- The same record without a site name (and no parsable timestamp). -/
def sampleNoSite : Record := { nullRecord with «管理番号» := some "HK-001".data }

/-- The cells of the unconditional generation-date stamp (B5, D5, F5). -/
def stampCells : List Cell := [('B', 5), ('D', 5), ('F', 5)]

/-- The cells every projection clears: the four multi-line blocks
C15–C18, C20–C24, C25–C29, C30–C34. -/
def clearCells : List Cell :=
  ((List.range 4).map fun i => (('C', 15 + i) : Cell)) ++
  ((List.range 5).map fun i => (('C', 20 + i) : Cell)) ++
  ((List.range 5).map fun i => (('C', 25 + i) : Cell)) ++
  ((List.range 5).map fun i => (('C', 30 + i) : Cell))

/-- The clearing writes of a projection of the all-null record. -/
def clearWrites : List (Cell × CellVal) :=
  clearCells.map fun c => (c, CellVal.str [])

/-- The line-by-line cleanup `_split_lines` performs before truncating:
strip every line, drop the blank ones. -/
def cleanLines (text : Option Str) : List Str :=
  match text with
  | none => []
  | some s =>
    if s = [] then [] else ((pySplitlines s).map pyStrip).filter (· ≠ [])

/-- A text whose normalized form contains the line `lit:v` preceded by
`pre` and followed by further lines `rest`. -/
def lineForm (lit pre v rest : Str) : Str :=
  pre ++ lit ++ ':' :: (v ++ '\n' :: rest)

/-- No spurious occurrence of the label inside the leading part. -/
def NoEarlierLabel (lit pre v rest : Str) : Prop :=
  ∀ i, i < pre.length → ¬ lit <+: ((lineForm lit pre v rest).drop i)

/-- The label literals of every pattern of `extract_fields` (single-line,
subject, URL, and multi-line vocabularies). -/
def labelLits : List Str :=
  ["件名".data, "管理番号".data, "物件名".data, "住所".data, "窓口".data,
   "メーカー".data, "制御方式".data, "契約種別".data, "受信時刻".data,
   "通報者".data, "現着時刻".data, "完了時刻".data, "対応者".data,
   "送信者".data, "受付番号".data, "詳細はこちら".data,
   "現着・完了登録はこちら".data, "受信内容".data, "現着状況".data,
   "原因".data, "処置内容".data]

-- ====== Helper lemmas ======

theorem dropPfx?_self_append (l r : Str) : dropPfx? l (l ++ r) = some r := by
  induction l with
  | nil => rfl
  | cons a as ih => simp [dropPfx?, ih]

theorem dropPfx?_eq_none_of_not_pfx {l s : Str} (h : ¬ l <+: s) :
    dropPfx? l s = none := by
  induction l generalizing s with
  | nil => exact absurd (List.nil_prefix) h
  | cons a as ih =>
    cases s with
    | nil => rfl
    | cons b bs =>
      by_cases hab : a = b
      · subst hab
        simp only [dropPfx?, if_pos rfl]
        exact ih fun hp => h ⟨hp.choose, by simp [hp.choose_spec]⟩
      · simp [dropPfx?, hab]

theorem withLit_none {α : Type} (lit : Str) (k : Str → Option α) {s : Str}
    (h : ¬ lit <+: s) : withLit lit k s = none := by
  simp [withLit, dropPfx?_eq_none_of_not_pfx h]

theorem searchFrom_of_some {α : Type} {m : Str → Option α} {t : Str} {r : α}
    (h : m t = some r) : searchFrom m t = some r := by
  cases t with
  | nil => simpa [searchFrom] using h
  | cons c rest => simp [searchFrom, h]

theorem searchFrom_cons {α : Type} (m : Str → Option α) (c : Char) (rest : Str) :
    searchFrom m (c :: rest) =
      match m (c :: rest) with
      | some r => some r
      | none => searchFrom m rest := rfl

theorem searchFrom_append {α : Type} (m : Str → Option α) (pre u : Str)
    (h : ∀ i, i < pre.length → m ((pre ++ u).drop i) = none) :
    searchFrom m (pre ++ u) = searchFrom m u := by
  induction pre with
  | nil => rfl
  | cons c cs ih =>
    have h0 : m (c :: (cs ++ u)) = none := by
      have := h 0 (by simp)
      simpa using this
    have hrest : ∀ i, i < cs.length → m ((cs ++ u).drop i) = none := by
      intro i hi
      have := h (i + 1) (by simp; omega)
      simpa using this
    have : searchFrom m ((c :: cs) ++ u) = searchFrom m (cs ++ u) := by
      rw [List.cons_append, searchFrom_cons, h0]
    rw [this]
    exact ih hrest

theorem searchFrom_none {α : Type} (m : Str → Option α) (t : Str)
    (h : ∀ s, s <:+ t → m s = none) : searchFrom m t = none := by
  induction t with
  | nil => simpa [searchFrom] using h [] (List.nil_suffix)
  | cons c rest ih =>
    have h0 : m (c :: rest) = none := h _ (List.suffix_refl _)
    simp only [searchFrom, h0]
    exact ih fun s hs => h s (hs.trans (List.suffix_cons c rest))

theorem searchFrom_withLit_none {α : Type} (lit : Str) (k : Str → Option α)
    {t : Str} (h : ¬ lit <:+: t) : searchFrom (withLit lit k) t = none :=
  searchFrom_none _ _ fun s hs =>
    withLit_none lit k fun hp => h (List.infix_iff_prefix_suffix.mpr ⟨s, hp, hs⟩)

theorem not_infix_of_pfx {l₁ l₂ t : Str} (hp : l₁ <+: l₂) (hn : ¬ l₁ <:+: t) :
    ¬ l₂ <:+: t := fun hi => hn (hp.isInfix.trans hi)

theorem dropWhile_append_of_mem {p : Char → Bool} {a : Str} (b : Str)
    (h : ∃ c ∈ a, p c = false) :
    (a ++ b).dropWhile p = a.dropWhile p ++ b := by
  induction a with
  | nil => simp at h
  | cons x xs ih =>
    by_cases hx : p x
    · have h' : ∃ c ∈ xs, p c = false := by
        rcases h with ⟨c, hc, hpc⟩
        rcases List.mem_cons.mp hc with rfl | hmem
        · exact absurd hx (by simp [hpc])
        · exact ⟨c, hmem, hpc⟩
      simp [List.dropWhile, hx, ih h']
    · simp [List.dropWhile, hx]

theorem dropWhile_ne_nil_of_mem {p : Char → Bool} {a : Str}
    (h : ∃ c ∈ a, p c = false) : a.dropWhile p ≠ [] := by
  induction a with
  | nil => simp at h
  | cons x xs ih =>
    by_cases hx : p x
    · have h' : ∃ c ∈ xs, p c = false := by
        rcases h with ⟨c, hc, hpc⟩
        rcases List.mem_cons.mp hc with rfl | hmem
        · exact absurd hx (by simp [hpc])
        · exact ⟨c, hmem, hpc⟩
      simpa [List.dropWhile, hx] using ih h'
    · simp [List.dropWhile, hx]

theorem takeWhile_ne_append {a b : Str} {x : Char} (h : ∀ c ∈ a, c ≠ x) :
    (a ++ x :: b).takeWhile (· ≠ x) = a := by
  induction a with
  | nil => simp [List.takeWhile]
  | cons y ys ih =>
    have hy : y ≠ x := h y (by simp)
    have step : ((y :: ys) ++ x :: b).takeWhile (· ≠ x) =
        y :: (ys ++ x :: b).takeWhile (· ≠ x) := by
      rw [List.cons_append]
      exact List.takeWhile_cons_of_pos (by simpa using hy)
    rw [step, ih fun c hc => h c (by simp [hc])]

theorem dropWhile_dropWhile (p : Char → Bool) (a : Str) :
    (a.dropWhile p).dropWhile p = a.dropWhile p := by
  induction a with
  | nil => rfl
  | cons x xs ih =>
    by_cases hx : p x
    · simpa [List.dropWhile, hx] using ih
    · simp [List.dropWhile, hx]

theorem pyStrip_dropWhile (a : Str) : pyStrip (a.dropWhile isPyWS) = pyStrip a := by
  simp [pyStrip, dropWhile_dropWhile]

theorem applyWrites_append (a b : List (Cell × CellVal)) (ws : Sheet) :
    applyWrites (a ++ b) ws = applyWrites b (applyWrites a ws) := by
  simp [applyWrites, List.foldl_append]

theorem applyWrites_notMem (l : List (Cell × CellVal)) (ws : Sheet) {c : Cell}
    (h : c ∉ l.map Prod.fst) : applyWrites l ws c = ws c := by
  induction l generalizing ws with
  | nil => rfl
  | cons e l' ih =>
    have hne : c ≠ e.1 := by
      intro hc
      exact h (by simp [hc])
    have h' : c ∉ l'.map Prod.fst := fun hm => h (by simp [hm])
    calc applyWrites (e :: l') ws c = applyWrites l' (setCell ws e.1 e.2) c := rfl
      _ = setCell ws e.1 e.2 c := ih _ h'
      _ = ws c := by simp [setCell, hne]

theorem applyWrites_congr_at (l : List (Cell × CellVal)) {ws ws' : Sheet} {c : Cell}
    (h : ws c = ws' c) : applyWrites l ws c = applyWrites l ws' c := by
  induction l generalizing ws ws' with
  | nil => exact h
  | cons e l' ih =>
    have hset : setCell ws e.1 e.2 c = setCell ws' e.1 e.2 c := by
      by_cases hc : c = e.1 <;> simp [setCell, hc, h]
    exact ih hset

theorem applyWrites_const (l : List (Cell × CellVal)) (ws : Sheet) {c : Cell}
    {v : CellVal} (hmem : c ∈ l.map Prod.fst) (hval : ∀ e ∈ l, e.2 = v) :
    applyWrites l ws c = v := by
  induction l generalizing ws with
  | nil => simp at hmem
  | cons e l' ih =>
    by_cases hm : c ∈ l'.map Prod.fst
    · exact ih _ hm fun e' he' => hval e' (by simp [he'])
    · have hc : c = e.1 := by
        rcases List.mem_map.mp hmem with ⟨e', he', hfst⟩
        rcases List.mem_cons.mp he' with rfl | hmem'
        · exact hfst.symm
        · exact absurd (List.mem_map.mpr ⟨e', hmem', hfst⟩) hm
      calc applyWrites (e :: l') ws c = applyWrites l' (setCell ws e.1 e.2) c := rfl
        _ = setCell ws e.1 e.2 c := applyWrites_notMem _ _ hm
        _ = e.2 := by simp [setCell, hc]
        _ = v := hval e (by simp)

theorem truthy_some_of_ne {v : Str} (h : v ≠ []) : truthy (some v) = true := by
  cases v with
  | nil => exact absurd rfl h
  | cons c cs => rfl

theorem withLit_some {α : Type} {lit s r : Str} (k : Str → Option α)
    (h : dropPfx? lit s = some r) : withLit lit k s = k r := by
  unfold withLit
  rw [h]

theorem afterColon_colon {α : Type} (k : Str → Option α) (w : Str) :
    afterColon k (':' :: w) = k w := by
  unfold afterColon
  rw [List.dropWhile_cons_of_neg (by simp [isPyWS])]
  rfl

/-- The value the leftmost match of `LIT\s*:\s*(.+)` captures on a text of
the shape `pre ++ LIT ++ ":" ++ v ++ "\n" ++ rest`: the remainder of the
label line, which strips to `pyStrip v`. -/
theorem search_one_rem_structured (lit pre v rest : Str)
    (hpre : NoEarlierLabel lit pre v rest)
    (hnl : '\n' ∉ v) (hws : ∃ c ∈ v, isPyWS c = false) :
    _search_one (matchLabelRem lit) (lineForm lit pre v rest) = some (pyStrip v) := by
  have hdw : (v ++ '\n' :: rest).dropWhile isPyWS = v.dropWhile isPyWS ++ '\n' :: rest := by
    have := dropWhile_append_of_mem (p := isPyWS) ('\n' :: rest) hws
    simpa using this
  have hne : v.dropWhile isPyWS ≠ [] := dropWhile_ne_nil_of_mem hws
  have hmatch : matchLabelRem lit (lit ++ ':' :: (v ++ '\n' :: rest)) =
      some (v.dropWhile isPyWS) := by
    obtain ⟨c, tl, hct⟩ : ∃ c tl, v.dropWhile isPyWS = c :: tl := by
      cases hvd : v.dropWhile isPyWS with
      | nil => exact absurd hvd hne
      | cons c tl => exact ⟨c, tl, rfl⟩
    have hmemtl : ∀ x ∈ c :: tl, x ≠ '\n' := by
      intro x hx
      have hxv : x ∈ v := (List.dropWhile_sublist (l := v) (p := isPyWS)).mem (hct ▸ hx)
      intro hxe
      exact hnl (hxe ▸ hxv)
    have htw : (tl ++ '\n' :: rest).takeWhile (· ≠ '\n') = tl :=
      takeWhile_ne_append fun x hx => hmemtl x (by simp [hx])
    have h3 : groupRem (v ++ '\n' :: rest) = some (c :: tl) := by
      unfold groupRem
      rw [hdw, hct, List.cons_append]
      show some (c :: (tl ++ '\n' :: rest).takeWhile (· ≠ '\n')) = some (c :: tl)
      rw [htw]
    rw [matchLabelRem, withLit_some _ (dropPfx?_self_append _ _), afterColon_colon, h3, hct]
  have hall : ∀ i, i < pre.length →
      matchLabelRem lit ((lineForm lit pre v rest).drop i) = none := by
    intro i hi
    exact withLit_none lit _ (hpre i hi)
  have hsearch : searchFrom (matchLabelRem lit) (lineForm lit pre v rest) =
      some (v.dropWhile isPyWS) := by
    have hsplit : lineForm lit pre v rest = pre ++ (lit ++ ':' :: (v ++ '\n' :: rest)) := by
      simp [lineForm]
    rw [hsplit]
    rw [searchFrom_append _ pre _ (by
      intro i hi
      have := hall i hi
      rwa [show lineForm lit pre v rest = pre ++ (lit ++ ':' :: (v ++ '\n' :: rest)) from hsplit] at this)]
    exact searchFrom_of_some hmatch
  rw [_search_one, hsearch]
  simp [pyStrip_dropWhile]

theorem not_mem_replaceChar_self {a b : Char} (s : Str) (h : a ≠ b) :
    a ∉ replaceChar a b s := by
  intro hm
  rcases List.mem_map.mp hm with ⟨x, _, hx⟩
  by_cases hxa : x = a
  · rw [if_pos hxa] at hx
    exact h hx.symm
  · rw [if_neg hxa] at hx
    exact hxa hx

theorem not_mem_replaceChar_of {a b c : Char} (s : Str) (hc : c ∉ s) (hb : c ≠ b) :
    c ∉ replaceChar a b s := by
  intro hm
  rcases List.mem_map.mp hm with ⟨x, hxs, hx⟩
  by_cases hxa : x = a
  · rw [if_pos hxa] at hx
    exact hb hx.symm
  · rw [if_neg hxa] at hx
    exact hc (hx ▸ hxs)

theorem replaceChar_eq_of_not_mem {a b : Char} (s : Str) (h : a ∉ s) :
    replaceChar a b s = s := by
  induction s with
  | nil => rfl
  | cons x xs ih =>
    have hxa : x ≠ a := fun he => h (by simp [he])
    have : a ∉ xs := fun hm => h (by simp [hm])
    simp [replaceChar] at ih ⊢
    exact ⟨fun he => absurd he hxa, ih this⟩

theorem mem_replaceCRLF {c : Char} (s : Str) (h : c ∈ replaceCRLF s) :
    c ∈ s ∨ c = '\n' := by
  induction s using replaceCRLF.induct with
  | case1 => simp [replaceCRLF] at h
  | case2 rest ih =>
    rw [replaceCRLF] at h
    rcases List.mem_cons.mp h with rfl | hm
    · exact Or.inr rfl
    · rcases ih hm with h1 | h2
      · exact Or.inl (by simp [h1])
      · exact Or.inr h2
  | case3 x rest hne ih =>
    rw [replaceCRLF.eq_3 x rest hne] at h
    rcases List.mem_cons.mp h with rfl | hm
    · exact Or.inl (by simp)
    · rcases ih hm with h1 | h2
      · exact Or.inl (by simp [h1])
      · exact Or.inr h2

theorem replaceCRLF_eq_of_no_cr (s : Str) (h : '\r' ∉ s) : replaceCRLF s = s := by
  induction s using replaceCRLF.induct with
  | case1 => rfl
  | case2 rest ih => simp at h
  | case3 x rest hne ih =>
    rw [replaceCRLF.eq_3 x rest hne]
    rw [ih fun hm => h (by simp [hm])]

theorem not_mem_replaceCRLF {c : Char} (s : Str) (hc : c ∉ s) (hn : c ≠ '\n') :
    c ∉ replaceCRLF s := by
  intro hm
  rcases mem_replaceCRLF s hm with h1 | h2
  · exact hc h1
  · exact hn h2

/-- The replacement chain of `normalize_text` is idempotent: its output
contains no `：`, no tab and no `\r`, so a second pass changes nothing. -/
theorem normalizeRepl_idem (s : Str) : normalizeRepl (normalizeRepl s) = normalizeRepl s := by
  have h1 : '：' ∉ replaceChar '：' ':' s := not_mem_replaceChar_self s (by decide)
  have h2 : '：' ∉ replaceChar '\t' ' ' (replaceChar '：' ':' s) :=
    not_mem_replaceChar_of _ h1 (by decide)
  have h3 : '：' ∉ replaceCRLF (replaceChar '\t' ' ' (replaceChar '：' ':' s)) :=
    not_mem_replaceCRLF _ h2 (by decide)
  have hcolon : '：' ∉ normalizeRepl s := by
    unfold normalizeRepl
    exact not_mem_replaceChar_of _ h3 (by decide)
  have t1 : '\t' ∉ replaceChar '\t' ' ' (replaceChar '：' ':' s) :=
    not_mem_replaceChar_self _ (by decide)
  have t2 : '\t' ∉ replaceCRLF (replaceChar '\t' ' ' (replaceChar '：' ':' s)) :=
    not_mem_replaceCRLF _ t1 (by decide)
  have htab : '\t' ∉ normalizeRepl s := by
    unfold normalizeRepl
    exact not_mem_replaceChar_of _ t2 (by decide)
  have hcr : '\r' ∉ normalizeRepl s := by
    unfold normalizeRepl
    exact not_mem_replaceChar_self _ (by decide)
  conv_lhs => rw [normalizeRepl]
  rw [replaceChar_eq_of_not_mem _ hcolon]
  rw [replaceChar_eq_of_not_mem _ htab]
  rw [replaceCRLF_eq_of_no_cr _ hcr]
  rw [replaceChar_eq_of_not_mem _ hcr]

-- ====== Field-projection unfoldings of `extract_fields` ======

theorem «ef_物件名» (nfkc : Str → Str) (raw : Str) :
    (extract_fields nfkc raw).«物件名» =
      _search_one (matchLabelRem "物件名".data) (normalize_text nfkc raw) := rfl

theorem «ef_住所» (nfkc : Str → Str) (raw : Str) :
    (extract_fields nfkc raw).«住所» =
      _search_one (matchLabelRem "住所".data) (normalize_text nfkc raw) := rfl

theorem «ef_窓口会社» (nfkc : Str → Str) (raw : Str) :
    (extract_fields nfkc raw).«窓口会社» =
      _search_one (matchLabelRem "窓口".data) (normalize_text nfkc raw) := rfl

theorem «ef_メーカー» (nfkc : Str → Str) (raw : Str) :
    (extract_fields nfkc raw).«メーカー» =
      _search_one (matchLabelRem "メーカー".data) (normalize_text nfkc raw) := rfl

theorem «ef_制御方式» (nfkc : Str → Str) (raw : Str) :
    (extract_fields nfkc raw).«制御方式» =
      _search_one (matchLabelRem "制御方式".data) (normalize_text nfkc raw) := rfl

theorem «ef_契約種別» (nfkc : Str → Str) (raw : Str) :
    (extract_fields nfkc raw).«契約種別» =
      _search_one (matchLabelRem "契約種別".data) (normalize_text nfkc raw) := rfl

theorem «ef_通報者» (nfkc : Str → Str) (raw : Str) :
    (extract_fields nfkc raw).«通報者» =
      spanOv "通報者".data (normalize_text nfkc raw)
        (_search_one (matchLabelRem "通報者".data) (normalize_text nfkc raw)) := rfl

theorem «ef_対応者» (nfkc : Str → Str) (raw : Str) :
    (extract_fields nfkc raw).«対応者» =
      spanOv "対応者".data (normalize_text nfkc raw)
        (_search_one (matchLabelRem "対応者".data) (normalize_text nfkc raw)) := rfl

theorem «ef_送信者» (nfkc : Str → Str) (raw : Str) :
    (extract_fields nfkc raw).«送信者» =
      spanOv "送信者".data (normalize_text nfkc raw)
        (_search_one (matchLabelRem "送信者".data) (normalize_text nfkc raw)) := rfl

theorem «ef_現着時刻» (nfkc : Str → Str) (raw : Str) :
    (extract_fields nfkc raw).«現着時刻» =
      spanOv "現着時刻".data (normalize_text nfkc raw)
        (_search_one (matchLabelClassWS "現着時刻".data isTimeChar) (normalize_text nfkc raw)) := rfl

theorem «ef_完了時刻» (nfkc : Str → Str) (raw : Str) :
    (extract_fields nfkc raw).«完了時刻» =
      spanOv "完了時刻".data (normalize_text nfkc raw)
        (_search_one (matchLabelClassWS "完了時刻".data isTimeChar) (normalize_text nfkc raw)) := rfl

theorem spanOv_truthy {lit : Str} {t : Str} {v : Str} (single : Option Str)
    (hsp : searchSpan lit t = some v) (hne : v ≠ []) :
    spanOv lit t single = some v := by
  unfold spanOv
  rw [hsp, if_pos]
  rw [truthy_some_of_ne hne]

-- ====== Claim theorems ======

/-- C1 counterexample: on the swapped pair of the claim's own test vector the
calculator returns `-90`, not `null` — the negative result is not suppressed
inside `minutes_between`. -/
theorem c1_counterexample :
    minutes_between (some "2025/05/10 11:30".data) (some "2025/05/10 10:00".data) =
      some (-90) ∧
    minutes_between (some "2025/05/10 11:30".data) (some "2025/05/10 10:00".data) ≠
      none := by
  constructor
  · decide
  · decide

/-- C1 (amended): `minutes_between` returns `null` when either argument
fails to parse and otherwise the floor of `(b - a)` in whole minutes,
including negative values; the suppression of negative results to `null`
happens in its caller `extract_fields` (the `作業時間_分` field), not in the
calculator itself.  `minutesBetween("2025/05/10 10:00", "2025/05/10 11:30")
= 90`, the swapped pair gives `-90`, and the derived work-minutes field for
the swapped pair is `null`. -/
theorem c1_minutes_between_amended :
    (∀ a b, _try_parse_datetime a = none → minutes_between a b = none) ∧
    (∀ a b, _try_parse_datetime b = none → minutes_between a b = none) ∧
    (∀ a b sa sb, _try_parse_datetime a = some sa → _try_parse_datetime b = some sb →
      minutes_between a b = some ((dtToSec sb - dtToSec sa).fdiv 60)) ∧
    minutes_between (some "2025/05/10 10:00".data) (some "2025/05/10 11:30".data) =
      some 90 ∧
    minutes_between (some "2025/05/10 11:30".data) (some "2025/05/10 10:00".data) =
      some (-90) ∧
    workMinutesField (some "2025/05/10 11:30".data) (some "2025/05/10 10:00".data) =
      none ∧
    workMinutesField (some "2025/05/10 10:00".data) (some "2025/05/10 11:30".data) =
      some "90".data := by
  refine ⟨?_, ?_, ?_, by decide, by decide, by decide, by decide⟩
  · intro a b h
    unfold minutes_between
    rw [h]
  · intro a b h
    unfold minutes_between
    rw [h]
    cases _try_parse_datetime a <;> rfl
  · intro a b sa sb ha hb
    unfold minutes_between
    rw [ha, hb]

/-- Witness for C1: the universal parts applied at concrete unparsable
inputs. -/
theorem c1_minutes_between_amended_witness :
    minutes_between (some ['x']) (some "2025/05/10 10:00".data) = none ∧
    minutes_between (some "2025/05/10 10:00".data) (some ['x']) = none :=
  ⟨c1_minutes_between_amended.1 _ _ (by decide),
   c1_minutes_between_amended.2.1 _ _ (by decide)⟩

/-- C2 counterexample: the built filename does not begin with the
identifier — a fixed report-type token `緊急出動報告書_` precedes it, so the
claimed name `HK-001_Sample_Bldg_20250510.<ext>` is wrong for every
extension. -/
theorem c2_counterexample :
    ¬ ("HK-001".data <+: build_filename sampleC2 now0) := by decide

/-- C2 (amended): `build_filename` composes a fixed leading token
`緊急出動報告書_`, then the sanitized identifier, an optional `_` + sanitized
site name (omitted together with its separator when empty), `_` + the
8-digit anchor date, and the fixed `.xlsm` extension; on the claim's test
vector it yields `緊急出動報告書_HK-001_Sample_Bldg_20250510.xlsm`, with only
the unsafe separator replaced. -/
theorem c2_build_filename_amended :
    (∀ (data : Record) (now : DT), build_filename data now = build_filename_shape data now) ∧
    build_filename sampleC2 now0 =
      "緊急出動報告書_HK-001_Sample_Bldg_20250510.xlsm".data ∧
    build_filename sampleNoSite now0 =
      "緊急出動報告書_HK-001_20251012.xlsm".data := by
  refine ⟨?_, by decide, by decide⟩
  intro data now
  unfold build_filename build_filename_shape
  by_cases hb :
      _sanitize_filename (replaceChar '/' '_' (pyStrip
        (if truthy data.«物件名» then data.«物件名».getD [] else []))) = []
  · simp [hb]
  · simp [hb]

/-- C4 counterexample: lines are stripped of surrounding whitespace (the
line `  a  ` comes back as `a`, not unchanged), and for `maxLines = 0`
Python's negative indices return all lines instead of exactly zero. -/
theorem c4_counterexample :
    _split_lines (some "  a  \nb".data) 5 = [['a'], ['b']] ∧
    (['a'] : Str) ≠ "  a  ".data ∧
    _split_lines (some "a\nb".data) 0 = [['a'], ['b', '…']] := by
  refine ⟨by decide, by decide, by decide⟩

/-- C4 (amended): for `maxLines ≥ 1`, `_split_lines` splits on line
boundaries, strips each line and discards blank ones; it returns those
cleaned lines when their count is at most `maxLines`, and otherwise exactly
`maxLines` lines — the first `maxLines - 1` cleaned lines, then the
`maxLines`-th cleaned line with `…` appended — dropping the rest.  Null or
empty input yields the empty sequence (`cleanLines` is then empty). -/
theorem c4_truncate_amended (text : Option Str) (max_lines : Nat) (h : 1 ≤ max_lines) :
    (_split_lines text max_lines).length = min (cleanLines text).length max_lines ∧
    (_split_lines text max_lines).take (max_lines - 1) =
      (cleanLines text).take (max_lines - 1) ∧
    ((cleanLines text).length ≤ max_lines →
      _split_lines text max_lines = cleanLines text) ∧
    (max_lines < (cleanLines text).length →
      _split_lines text max_lines =
        (cleanLines text).take (max_lines - 1) ++
          [(cleanLines text).getD (max_lines - 1) [] ++ ['…']]) := by
  have key : _split_lines text max_lines =
      if (cleanLines text).length ≤ max_lines then cleanLines text
      else (cleanLines text).take (max_lines - 1) ++
        [(cleanLines text).getD (max_lines - 1) [] ++ ['…']] := by
    cases text with
    | none => simp [_split_lines, cleanLines]
    | some s =>
      by_cases hs : s = []
      · simp [_split_lines, cleanLines, hs]
      · have hm0 : max_lines ≠ 0 := by omega
        simp [_split_lines, cleanLines, hs, hm0]
  rw [key]
  by_cases hlen : (cleanLines text).length ≤ max_lines
  · rw [if_pos hlen]
    exact ⟨(Nat.min_eq_left hlen).symm, rfl, fun _ => rfl, fun hlt => absurd hlt (by omega)⟩
  · rw [if_neg hlen]
    have hlt : max_lines < (cleanLines text).length := by omega
    refine ⟨?_, ?_, fun hle => absurd hle hlen, fun _ => rfl⟩
    · simp [List.length_append, List.length_take]
      omega
    · rw [List.take_append_of_le_length (by simp [List.length_take]; omega)]
      rw [List.take_take]
      simp

/-- Witness for C4: the specification's seven-line example at
`maxLines = 5` has exactly five output lines. -/
theorem c4_truncate_amended_witness :
    (_split_lines (some "l1\nl2\nl3\nl4\nl5\nl6\nl7".data) 5).length =
      min (cleanLines (some "l1\nl2\nl3\nl4\nl5\nl6\nl7".data)).length 5 :=
  (c4_truncate_amended (some "l1\nl2\nl3\nl4\nl5\nl6\nl7".data) 5 (by decide)).1

/-- C5 counterexample: the reception-number pattern captures `([0-9]+)`, so
on the line `受付番号:123 456` the extracted value is `123`, not the full
trimmed remainder `123 456` — characters are dropped. -/
theorem c5_counterexample :
    (extract_fields id "受付番号:123 456".data).«受付番号» = some "123".data ∧
    (some "123".data : Option Str) ≠ some "123 456".data :=
  ⟨by decide, by decide⟩

/-- C5 (amended): the extracted value equals the trimmed full remainder of
the label line only for the single-line keys whose pattern captures `(.+)`
and which are not shared with the multi-line vocabulary — site name,
address, contact company, maker, control method, contract type.  Keys with
restricted value classes (management number, times, reception number, URLs)
capture only the matching token, and keys shared with the multi-line
vocabulary can be overridden by span capture.  Stated for a normalized text
containing the line `label:v` with no earlier occurrence of the label, `v`
newline-free and not all whitespace. -/
theorem c5_single_line_amended :
    (∀ (nfkc : Str → Str) (raw pre v rest : Str),
      normalize_text nfkc raw = lineForm "物件名".data pre v rest →
      NoEarlierLabel "物件名".data pre v rest →
      '\n' ∉ v → (∃ c ∈ v, isPyWS c = false) →
      (extract_fields nfkc raw).«物件名» = some (pyStrip v)) ∧
    (∀ (nfkc : Str → Str) (raw pre v rest : Str),
      normalize_text nfkc raw = lineForm "住所".data pre v rest →
      NoEarlierLabel "住所".data pre v rest →
      '\n' ∉ v → (∃ c ∈ v, isPyWS c = false) →
      (extract_fields nfkc raw).«住所» = some (pyStrip v)) ∧
    (∀ (nfkc : Str → Str) (raw pre v rest : Str),
      normalize_text nfkc raw = lineForm "窓口".data pre v rest →
      NoEarlierLabel "窓口".data pre v rest →
      '\n' ∉ v → (∃ c ∈ v, isPyWS c = false) →
      (extract_fields nfkc raw).«窓口会社» = some (pyStrip v)) ∧
    (∀ (nfkc : Str → Str) (raw pre v rest : Str),
      normalize_text nfkc raw = lineForm "メーカー".data pre v rest →
      NoEarlierLabel "メーカー".data pre v rest →
      '\n' ∉ v → (∃ c ∈ v, isPyWS c = false) →
      (extract_fields nfkc raw).«メーカー» = some (pyStrip v)) ∧
    (∀ (nfkc : Str → Str) (raw pre v rest : Str),
      normalize_text nfkc raw = lineForm "制御方式".data pre v rest →
      NoEarlierLabel "制御方式".data pre v rest →
      '\n' ∉ v → (∃ c ∈ v, isPyWS c = false) →
      (extract_fields nfkc raw).«制御方式» = some (pyStrip v)) ∧
    (∀ (nfkc : Str → Str) (raw pre v rest : Str),
      normalize_text nfkc raw = lineForm "契約種別".data pre v rest →
      NoEarlierLabel "契約種別".data pre v rest →
      '\n' ∉ v → (∃ c ∈ v, isPyWS c = false) →
      (extract_fields nfkc raw).«契約種別» = some (pyStrip v)) := by
  refine ⟨?_, ?_, ?_, ?_, ?_, ?_⟩ <;> intro nfkc raw pre v rest h1 h2 h3 h4
  · rw [«ef_物件名», h1]
    exact search_one_rem_structured _ pre v rest h2 h3 h4
  · rw [«ef_住所», h1]
    exact search_one_rem_structured _ pre v rest h2 h3 h4
  · rw [«ef_窓口会社», h1]
    exact search_one_rem_structured _ pre v rest h2 h3 h4
  · rw [«ef_メーカー», h1]
    exact search_one_rem_structured _ pre v rest h2 h3 h4
  · rw [«ef_制御方式», h1]
    exact search_one_rem_structured _ pre v rest h2 h3 h4
  · rw [«ef_契約種別», h1]
    exact search_one_rem_structured _ pre v rest h2 h3 h4

/-- Witness for C5: a site-name line after a heading line; the value is the
trimmed remainder. -/
theorem c5_single_line_amended_witness :
    (extract_fields id "ヘッダ\n物件名: ビルA \n住所:東京".data).«物件名» =
      some (pyStrip " ビルA ".data) :=
  c5_single_line_amended.1 id "ヘッダ\n物件名: ビルA \n住所:東京".data
    "ヘッダ\n".data " ビルA ".data "住所:東京".data
    (by decide) (by unfold NoEarlierLabel; decide) (by decide) (by decide)

/-- C6 counterexample: when the same single-line key occurs on two label
lines, `re.search` keeps the FIRST occurrence (`A`), not the last (`B`). -/
theorem c6_counterexample :
    (extract_fields id "物件名:A\n物件名:B".data).«物件名» = some ['A'] ∧
    (some ['A'] : Option Str) ≠ some ['B'] :=
  ⟨by decide, by decide⟩

/-- C6 (amended): when the same single-line key occurs on more than one
label line, the extracted record holds the value from the LEFTMOST label
line at which the key's full pattern matches, never the last occurrence.
For each of the six full-remainder keys (site name, address, contact
company, maker, control method, contract type) the pattern matches at every
label line, so the first occurrence wins: on any text whose normalized form
is `pre ++ label:v1 \n ... label: tail2 ...` with no occurrence of the
label inside `pre` (i.e. `label:v1` is the first occurrence), `v1`
newline-free and not all whitespace, the value is `strip v1`, whatever the
later occurrence holds.  For a class-restricted key an earlier label line
whose remainder does not start with the value class is skipped, so a later
occurrence can win: `受付番号:abc\n受付番号:123` extracts `123`. -/
theorem c6_leftmost_match_wins :
    (∀ (nfkc : Str → Str) (raw pre v1 mid tail2 : Str),
      normalize_text nfkc raw =
        lineForm "物件名".data pre v1 (mid ++ "物件名".data ++ ':' :: tail2) →
      NoEarlierLabel "物件名".data pre v1 (mid ++ "物件名".data ++ ':' :: tail2) →
      '\n' ∉ v1 → (∃ c ∈ v1, isPyWS c = false) →
      (extract_fields nfkc raw).«物件名» = some (pyStrip v1)) ∧
    (∀ (nfkc : Str → Str) (raw pre v1 mid tail2 : Str),
      normalize_text nfkc raw =
        lineForm "住所".data pre v1 (mid ++ "住所".data ++ ':' :: tail2) →
      NoEarlierLabel "住所".data pre v1 (mid ++ "住所".data ++ ':' :: tail2) →
      '\n' ∉ v1 → (∃ c ∈ v1, isPyWS c = false) →
      (extract_fields nfkc raw).«住所» = some (pyStrip v1)) ∧
    (∀ (nfkc : Str → Str) (raw pre v1 mid tail2 : Str),
      normalize_text nfkc raw =
        lineForm "窓口".data pre v1 (mid ++ "窓口".data ++ ':' :: tail2) →
      NoEarlierLabel "窓口".data pre v1 (mid ++ "窓口".data ++ ':' :: tail2) →
      '\n' ∉ v1 → (∃ c ∈ v1, isPyWS c = false) →
      (extract_fields nfkc raw).«窓口会社» = some (pyStrip v1)) ∧
    (∀ (nfkc : Str → Str) (raw pre v1 mid tail2 : Str),
      normalize_text nfkc raw =
        lineForm "メーカー".data pre v1 (mid ++ "メーカー".data ++ ':' :: tail2) →
      NoEarlierLabel "メーカー".data pre v1 (mid ++ "メーカー".data ++ ':' :: tail2) →
      '\n' ∉ v1 → (∃ c ∈ v1, isPyWS c = false) →
      (extract_fields nfkc raw).«メーカー» = some (pyStrip v1)) ∧
    (∀ (nfkc : Str → Str) (raw pre v1 mid tail2 : Str),
      normalize_text nfkc raw =
        lineForm "制御方式".data pre v1 (mid ++ "制御方式".data ++ ':' :: tail2) →
      NoEarlierLabel "制御方式".data pre v1 (mid ++ "制御方式".data ++ ':' :: tail2) →
      '\n' ∉ v1 → (∃ c ∈ v1, isPyWS c = false) →
      (extract_fields nfkc raw).«制御方式» = some (pyStrip v1)) ∧
    (∀ (nfkc : Str → Str) (raw pre v1 mid tail2 : Str),
      normalize_text nfkc raw =
        lineForm "契約種別".data pre v1 (mid ++ "契約種別".data ++ ':' :: tail2) →
      NoEarlierLabel "契約種別".data pre v1 (mid ++ "契約種別".data ++ ':' :: tail2) →
      '\n' ∉ v1 → (∃ c ∈ v1, isPyWS c = false) →
      (extract_fields nfkc raw).«契約種別» = some (pyStrip v1)) ∧
    (extract_fields id "受付番号:abc\n受付番号:123".data).«受付番号» =
      some "123".data := by
  refine ⟨?_, ?_, ?_, ?_, ?_, ?_, by decide⟩ <;>
    intro nfkc raw pre v1 mid tail2 h1 h2 h3 h4
  · rw [«ef_物件名», h1]
    exact search_one_rem_structured _ pre v1 _ h2 h3 h4
  · rw [«ef_住所», h1]
    exact search_one_rem_structured _ pre v1 _ h2 h3 h4
  · rw [«ef_窓口会社», h1]
    exact search_one_rem_structured _ pre v1 _ h2 h3 h4
  · rw [«ef_メーカー», h1]
    exact search_one_rem_structured _ pre v1 _ h2 h3 h4
  · rw [«ef_制御方式», h1]
    exact search_one_rem_structured _ pre v1 _ h2 h3 h4
  · rw [«ef_契約種別», h1]
    exact search_one_rem_structured _ pre v1 _ h2 h3 h4

/-- Witness for C6: two site-name lines after a heading line; the first
value `A` is kept, not the later `B`. -/
theorem c6_leftmost_match_wins_witness :
    (extract_fields id "工事メモ\n物件名:A\n物件名:B".data).«物件名» =
      some (pyStrip ['A']) :=
  c6_leftmost_match_wins.1 id "工事メモ\n物件名:A\n物件名:B".data
    "工事メモ\n".data ['A'] [] ['B']
    (by decide) (by unfold NoEarlierLabel; decide) (by decide) (by decide)

/-- C9 (confirmed): for every key shared between the single-line and
multi-line vocabularies (reporter, responder, sender, arrival time,
completion time), whenever the boundary-span search finds a non-empty span,
the extracted record's value is that span, overriding the single-line
capture. -/
theorem c9_span_override (nfkc : Str → Str) (raw : Str) :
    (∀ v, searchSpan "通報者".data (normalize_text nfkc raw) = some v → v ≠ [] →
      (extract_fields nfkc raw).«通報者» = some v) ∧
    (∀ v, searchSpan "対応者".data (normalize_text nfkc raw) = some v → v ≠ [] →
      (extract_fields nfkc raw).«対応者» = some v) ∧
    (∀ v, searchSpan "送信者".data (normalize_text nfkc raw) = some v → v ≠ [] →
      (extract_fields nfkc raw).«送信者» = some v) ∧
    (∀ v, searchSpan "現着時刻".data (normalize_text nfkc raw) = some v → v ≠ [] →
      (extract_fields nfkc raw).«現着時刻» = some v) ∧
    (∀ v, searchSpan "完了時刻".data (normalize_text nfkc raw) = some v → v ≠ [] →
      (extract_fields nfkc raw).«完了時刻» = some v) := by
  refine ⟨?_, ?_, ?_, ?_, ?_⟩ <;> intro v hsp hne
  · rw [«ef_通報者»]
    exact spanOv_truthy _ hsp hne
  · rw [«ef_対応者»]
    exact spanOv_truthy _ hsp hne
  · rw [«ef_送信者»]
    exact spanOv_truthy _ hsp hne
  · rw [«ef_現着時刻»]
    exact spanOv_truthy _ hsp hne
  · rw [«ef_完了時刻»]
    exact spanOv_truthy _ hsp hne

/-- Witness for C9: a responder line followed by an unlabeled continuation
line; the span, continuation included, becomes the field's value. -/
theorem c9_span_override_witness :
    (extract_fields id "対応者:田中\nそのまま".data).«対応者» =
      some "田中\nそのまま".data :=
  (c9_span_override id "対応者:田中\nそのまま".data).2.1 "田中\nそのまま".data
    (by decide) (by decide)

theorem search_one_withLit_none (lit : Str) (k : Str → Option Str) {t : Str}
    (h : ¬ lit <:+: t) : _search_one (withLit lit k) t = none := by
  unfold _search_one
  rw [searchFrom_withLit_none lit k h]
  rfl

/-- C7 (confirmed): on a text whose normalized form contains none of the
label literals, every field of the extracted record is `null`; extraction is
a total function, so it cannot raise. -/
theorem c7_no_labels_all_null (nfkc : Str → Str) (raw : Str)
    (h : ∀ l ∈ labelLits, ¬ l <:+: normalize_text nfkc raw) :
    extract_fields nfkc raw = nullRecord := by
  have hone : ∀ (lit : Str) (k : Str → Option Str), lit ∈ labelLits →
      _search_one (withLit lit k) (normalize_text nfkc raw) = none :=
    fun lit k hm => search_one_withLit_none lit k (h lit hm)
  have hsubj : ∀ (k : Str → Option Str),
      _search_one (withLit "件名:".data k) (normalize_text nfkc raw) = none :=
    fun k => search_one_withLit_none _ k
      (not_infix_of_pfx (by decide) (h "件名".data (by decide)))
  have hspan : ∀ lit, lit ∈ labelLits → searchSpan lit (normalize_text nfkc raw) = none := by
    intro lit hm
    unfold searchSpan _search_span_between
    rw [show matchSpanAt lit (multilineLits.filter (· ≠ lit)) =
        withLit lit (afterColon (groupSpan (multilineLits.filter (· ≠ lit)))) from rfl]
    rw [searchFrom_withLit_none _ _ (h lit hm)]
    rfl
  have hc1 : _search_one matchSubjectCase (normalize_text nfkc raw) = none := hsubj _
  have hc2 : _search_one matchSubjectMgmt (normalize_text nfkc raw) = none := hsubj _
  have h01 : _search_one (matchLabelClass "管理番号".data isMgmtChar)
      (normalize_text nfkc raw) = none := hone _ _ (by decide)
  have h02 : _search_one (matchLabelRem "物件名".data)
      (normalize_text nfkc raw) = none := hone _ _ (by decide)
  have h03 : _search_one (matchLabelRem "住所".data)
      (normalize_text nfkc raw) = none := hone _ _ (by decide)
  have h04 : _search_one (matchLabelRem "窓口".data)
      (normalize_text nfkc raw) = none := hone _ _ (by decide)
  have h05 : _search_one (matchLabelRem "メーカー".data)
      (normalize_text nfkc raw) = none := hone _ _ (by decide)
  have h06 : _search_one (matchLabelRem "制御方式".data)
      (normalize_text nfkc raw) = none := hone _ _ (by decide)
  have h07 : _search_one (matchLabelRem "契約種別".data)
      (normalize_text nfkc raw) = none := hone _ _ (by decide)
  have h08 : _search_one (matchLabelClassWS "受信時刻".data isTimeChar)
      (normalize_text nfkc raw) = none := hone _ _ (by decide)
  have h09 : _search_one (matchLabelRem "通報者".data)
      (normalize_text nfkc raw) = none := hone _ _ (by decide)
  have h10 : _search_one (matchLabelClassWS "現着時刻".data isTimeChar)
      (normalize_text nfkc raw) = none := hone _ _ (by decide)
  have h11 : _search_one (matchLabelClassWS "完了時刻".data isTimeChar)
      (normalize_text nfkc raw) = none := hone _ _ (by decide)
  have h12 : _search_one (matchLabelRem "対応者".data)
      (normalize_text nfkc raw) = none := hone _ _ (by decide)
  have h13 : _search_one (matchLabelRem "送信者".data)
      (normalize_text nfkc raw) = none := hone _ _ (by decide)
  have h14 : _search_one (matchLabelClass "受付番号".data Char.isDigit)
      (normalize_text nfkc raw) = none := hone _ _ (by decide)
  have h15 : _search_one (matchLabelLazyURL "詳細はこちら".data)
      (normalize_text nfkc raw) = none := hone _ _ (by decide)
  have h16 : _search_one (matchLabelURL "現着・完了登録はこちら".data)
      (normalize_text nfkc raw) = none := hone _ _ (by decide)
  have hs1 : searchSpan "受信内容".data (normalize_text nfkc raw) = none := hspan _ (by decide)
  have hs2 : searchSpan "現着状況".data (normalize_text nfkc raw) = none := hspan _ (by decide)
  have hs3 : searchSpan "原因".data (normalize_text nfkc raw) = none := hspan _ (by decide)
  have hs4 : searchSpan "処置内容".data (normalize_text nfkc raw) = none := hspan _ (by decide)
  have hs5 : searchSpan "通報者".data (normalize_text nfkc raw) = none := hspan _ (by decide)
  have hs6 : searchSpan "対応者".data (normalize_text nfkc raw) = none := hspan _ (by decide)
  have hs7 : searchSpan "送信者".data (normalize_text nfkc raw) = none := hspan _ (by decide)
  have hs8 : searchSpan "現着時刻".data (normalize_text nfkc raw) = none := hspan _ (by decide)
  have hs9 : searchSpan "完了時刻".data (normalize_text nfkc raw) = none := hspan _ (by decide)
  simp only [extract_fields, hc1, hc2, h01, h02, h03, h04, h05, h06, h07, h08,
    h09, h10, h11, h12, h13, h14, h15, h16]
  simp only [spanOv, hs1, hs2, hs3, hs4, hs5, hs6, hs7, hs8, hs9]
  simp [truthy, workMinutesField, minutes_between, _try_parse_datetime, nullRecord]

/-- Witness for C7: a label-free message extracts to the all-null record. -/
theorem c7_no_labels_all_null_witness :
    extract_fields id "特に異常ありません".data = nullRecord :=
  c7_no_labels_all_null id "特に異常ありません".data (by decide)

/-- C3 counterexample: projecting the all-null record overwrites the
multi-line block cell C15 with the empty string, so a non-stamp templated
cell loses its base-artifact default even though its source value is null. -/
theorem c3_counterexample :
    fill_template_xlsx baseX nullRecord none now0 ('C', 15) = CellVal.str [] ∧
    CellVal.str [] ≠ baseX ('C', 15) ∧
    (('C', 15) : Cell) ∉ stampCells := by
  refine ⟨by decide, by decide, by decide⟩

/-- C3 (amended): projecting the all-null record leaves every cell at its
base value except the generation-date stamp cells B5/D5/F5, which receive
the current date, and the multi-line block cells (C15–C18, C20–C24,
C25–C29, C30–C34), which are unconditionally pre-cleared to the empty
string; no other cell is written when its source value is null or empty. -/
theorem c3_null_projection_amended (ws : Sheet) (now : DT) :
    (∀ cell : Cell, cell ∉ stampCells → cell ∉ clearCells →
      fill_template_xlsx ws nullRecord none now cell = ws cell) ∧
    (∀ cell ∈ clearCells,
      fill_template_xlsx ws nullRecord none now cell = CellVal.str []) ∧
    fill_template_xlsx ws nullRecord none now ('B', 5) = CellVal.int now.year ∧
    fill_template_xlsx ws nullRecord none now ('D', 5) = CellVal.int now.month ∧
    fill_template_xlsx ws nullRecord none now ('F', 5) = CellVal.int now.day := by
  have hw : fill_template_writes nullRecord none now = writesStamp now ++ clearWrites := rfl
  refine ⟨?_, ?_, rfl, rfl, rfl⟩
  · intro cell h1 h2
    have hnm : cell ∉ (fill_template_writes nullRecord none now).map Prod.fst := by
      rw [hw, List.map_append]
      rw [show (writesStamp now).map Prod.fst = stampCells from rfl]
      rw [show clearWrites.map Prod.fst = clearCells from rfl]
      simp only [List.mem_append]
      rintro (hc | hc)
      exacts [h1 hc, h2 hc]
    exact applyWrites_notMem _ ws hnm
  · intro cell hc
    rw [show fill_template_xlsx ws nullRecord none now =
        applyWrites (fill_template_writes nullRecord none now) ws from rfl]
    rw [hw, applyWrites_append]
    refine applyWrites_const _ _ ?_ ?_
    · rw [show clearWrites.map Prod.fst = clearCells from rfl]
      exact hc
    · intro e he
      revert he
      revert e
      decide

/-- Witness for C3: a never-written cell keeps its base value; a block cell
is cleared. -/
theorem c3_null_projection_amended_witness :
    fill_template_xlsx baseX nullRecord none now0 ('A', 1) = baseX ('A', 1) ∧
    fill_template_xlsx baseX nullRecord none now0 ('C', 20) = CellVal.str [] :=
  ⟨(c3_null_projection_amended baseX now0).1 ('A', 1) (by decide) (by decide),
   (c3_null_projection_amended baseX now0).2.1 ('C', 20) (by decide)⟩

/-- C8 (confirmed): the projection is a pure function of the base sheet, the
record, the session value and the clock; outside the three generation-date
stamp cells its output does not depend on the clock at all, so re-projecting
the same record from the same base artifact can differ only at the stamp. -/
theorem c8_projection_now_independent (ws : Sheet) (data : Record)
    (sess : Option Str) (nowA nowB : DT) :
    ∀ cell : Cell, cell ∉ stampCells →
      fill_template_xlsx ws data sess nowA cell =
        fill_template_xlsx ws data sess nowB cell := by
  intro cell hc
  have hstamp : ∀ now : DT,
      applyWrites (writesStamp now) (applyWrites (writesPre data sess) ws) cell =
        applyWrites (writesPre data sess) ws cell := fun now =>
    applyWrites_notMem _ _ (by
      rw [show (writesStamp now).map Prod.fst = stampCells from rfl]
      exact hc)
  show applyWrites (fill_template_writes data sess nowA) ws cell =
    applyWrites (fill_template_writes data sess nowB) ws cell
  unfold fill_template_writes
  rw [applyWrites_append, applyWrites_append, applyWrites_append, applyWrites_append]
  exact applyWrites_congr_at _ ((hstamp nowA).trans (hstamp nowB).symm)

/-- Witness for C8: two projections at different clocks agree at C12. -/
theorem c8_projection_now_independent_witness :
    fill_template_xlsx baseX nullRecord none now0 ('C', 12) =
      fill_template_xlsx baseX nullRecord none now1 ('C', 12) :=
  c8_projection_now_independent baseX nullRecord none now0 now1 ('C', 12) (by decide)

/-- C10 (confirmed): `normalize_text` is idempotent.  The external NFKC step
is a parameter; the hypothesis says NFKC fixes every output of
`normalize_text` — true of `unicodedata.normalize("NFKC", ·)` since NFKC is
idempotent and the substituted characters (`:`, space, newline) are
normalization-inert — and under it a second pass changes nothing, the
replacement chain itself being idempotent (`normalizeRepl_idem`). -/
theorem c10_normalize_idempotent (nfkc : Str → Str)
    (h : ∀ s, nfkc (normalizeRepl (nfkc s)) = normalizeRepl (nfkc s)) :
    ∀ t, normalize_text nfkc (normalize_text nfkc t) = normalize_text nfkc t := by
  intro t
  by_cases ht : t = []
  · simp [normalize_text, ht]
  · have h1 : normalize_text nfkc t = normalizeRepl (nfkc t) := by
      rw [normalize_text, if_neg ht]
    rw [h1]
    by_cases hn : normalizeRepl (nfkc t) = []
    · rw [hn]
      simp [normalize_text]
    · rw [normalize_text, if_neg hn, h, normalizeRepl_idem]

/-- Witness for C10: the identity NFKC (which is what NFKC does on this
input) with a text exercising every replacement. -/
theorem c10_normalize_idempotent_witness :
    normalize_text id (normalize_text id "a：b\tc\r\nd".data) =
      normalize_text id "a：b\tc\r\nd".data :=
  c10_normalize_idempotent id (fun _ => rfl) "a：b\tc\r\nd".data
